import Mathlib

/-!
Shallow embedding of the KuLGaP null-distribution pipeline
(`kulgap/helpers.py`, `kulgap/plotting.py`, `code/aux_functions.py`).

Numeric values flowing through the divergence pipeline are numpy floats,
which may be NaN or infinite; they are modelled by `PFloat`, an extended
rational with IEEE-style propagation of the special values.  The adaptive
quadrature routine `scipy.integrate.quad` is external numerical code and is
modelled as an abstract integration oracle parameter of type `Quad`; the
repository code only ever uses the first component of its result, so the
oracle returns that component directly.  The fitted Gaussian-process model
of a condition (`gp.predict`) is modelled as a function from a time point
to a (mean, variance) pair of rationals.
-/

/-- Extended rational modelling a Python/numpy floating-point value: either
a finite rational or one of the special values NaN, +inf, -inf. -/
inductive PFloat where
  | nan
  | inf
  | ninf
  | num (q : ℚ)
deriving DecidableEq, Repr

namespace PFloat

/-- Negation on extended floats. -/
def pneg : PFloat → PFloat
  | nan => nan
  | inf => ninf
  | ninf => inf
  | num q => num (-q)

/-- Addition on extended floats, NaN-propagating, with inf + (-inf) = NaN. -/
def padd : PFloat → PFloat → PFloat
  | nan, _ => nan
  | _, nan => nan
  | inf, inf => inf
  | inf, ninf => nan
  | inf, num _ => inf
  | ninf, inf => nan
  | ninf, ninf => ninf
  | ninf, num _ => ninf
  | num _, inf => inf
  | num _, ninf => ninf
  | num a, num b => num (a + b)

/-- Subtraction on extended floats. -/
def psub (a b : PFloat) : PFloat := padd a (pneg b)

/-- Multiplication on extended floats; inf times zero is NaN. -/
def pmul : PFloat → PFloat → PFloat
  | nan, _ => nan
  | _, nan => nan
  | inf, inf => inf
  | inf, ninf => ninf
  | ninf, inf => ninf
  | ninf, ninf => inf
  | inf, num b => if 0 < b then inf else if b < 0 then ninf else nan
  | num a, inf => if 0 < a then inf else if a < 0 then ninf else nan
  | ninf, num b => if 0 < b then ninf else if b < 0 then inf else nan
  | num a, ninf => if 0 < a then ninf else if a < 0 then inf else nan
  | num a, num b => num (a * b)

/-- Division on extended floats: finite/0 gives a signed infinity (0/0 is
NaN), finite/inf gives 0, inf/inf is NaN, as numpy computes them. -/
def pdiv : PFloat → PFloat → PFloat
  | nan, _ => nan
  | _, nan => nan
  | inf, inf => nan
  | inf, ninf => nan
  | ninf, inf => nan
  | ninf, ninf => nan
  | inf, num b => if 0 ≤ b then inf else ninf
  | ninf, num b => if 0 ≤ b then ninf else inf
  | num _, inf => num 0
  | num _, ninf => num 0
  | num a, num b =>
      if b = 0 then (if a = 0 then nan else if 0 < a then inf else ninf)
      else num (a / b)

/-- Absolute value on extended floats. -/
def pabs : PFloat → PFloat
  | nan => nan
  | inf => inf
  | ninf => inf
  | num q => num |q|

/-- A value counts as non-negative when it is +inf or a finite rational
that is at least zero. -/
def pnonneg : PFloat → Bool
  | nan => false
  | inf => true
  | ninf => false
  | num q => decide (0 ≤ q)

/-- A value is finite when it is an ordinary number, neither NaN nor an
infinity. -/
def pfinite : PFloat → Bool
  | num _ => true
  | _ => false

end PFloat

/-- Shallow model of a TreatmentCondition as consumed by the divergence
core: `x` is the ordered list of time points, `y_cols` is `y.shape[1]`
(the number of observation columns), `measurement_end` indexes into `x`,
`drug_start_day` is a time value, and `gp` models the fitted predictive
model capability `gp.predict(t) = (mean, variance)`. -/
structure Condition where
  x : List ℚ
  y_cols : Nat
  measurement_end : Nat
  drug_start_day : ℚ
  gp : ℚ → ℚ × ℚ

instance : Inhabited Condition := ⟨⟨[], 0, 0, 0, fun _ => (0, 1)⟩⟩

/-- Abstract integration oracle modelling `scipy.integrate.quad` applied to
an integrand and the two interval endpoints; the `limit=100` subdivision
budget is part of the oracle configuration and does not appear. -/
abbrev Quad := (ℚ → PFloat) → ℚ → ℚ → PFloat

/-- Model of the retention test
`(new_kl is not None) and (str(new_kl) != "nan") and str(new_kl) != "inf"`
used by `cross_kl_divergences`.  `kl_divergence` always returns a float, so
the None check never fires; the string of NaN is "nan" and the string of
+inf is "inf", so exactly those two are rejected.  Note that the string of
-inf is "-inf", which differs from "inf", so a negative infinity would pass
this test. -/
def kl_filter_keep : PFloat → Bool
  | PFloat.nan => false
  | PFloat.inf => false
  | _ => true

/-- Error taxonomy of the null-distribution builder: the ValueError raised
by `calculate_null_kl` on a bad parameter combination (the ConfigurationError
of the design), and the failure of the density fit (the FitError of the
design). -/
inductive KulgapError where
  | configurationError
  | fitError
deriving DecidableEq, Repr

/-- Opaque model of a fitted KDEMultivariate density, keyed by the data it
was fit on. -/
structure Smoothed where
  data : List PFloat
deriving DecidableEq, Repr

/-- Result dictionary of `calculate_null_kl`: the raw divergence list and
the smoothed density fit over it. -/
structure NullKL where
  list : List PFloat
  smoothed : Smoothed
deriving DecidableEq, Repr

/-- Modelled from the spec: `sm.nonparametric.KDEMultivariate(data,
var_type="c", bw="cv_ml")` is third-party statsmodels code absent from the
source tree.  Per the spec, density fitting fails with a FitError exactly
when the raw list is empty or has fewer than 2 distinct values, and
otherwise returns the fitted density. -/
def KDEMultivariate (data : List PFloat) : Except KulgapError Smoothed :=
  if data.dedup.length < 2 then Except.error KulgapError.fitError
  else Except.ok ⟨data⟩

namespace helpers

/-- Embedding of `helpers.p_value`: for each y in l1, append
`(len([x for x in l2 if x >= y]) + 1) / (len(l2) + 1)`. -/
def p_value (l1 l2 : List ℚ) : List ℚ :=
  l1.map (fun y =>
    (((l2.filter (fun x => y ≤ x)).length : ℚ) + 1) / ((l2.length : ℚ) + 1))

/-- Embedding of the inner `kl_integrand` of `helpers.kl_divergence`:
`((var_control + (mean_control - mean_case)**2) / (2*var_case)) +
((var_case + (mean_case - mean_control)**2) / (2*var_control)) - 1`,
with the divisions carried out in float semantics. -/
def kl_integrand (case control : Condition) (t : ℚ) : PFloat :=
  let mean_control := (control.gp t).1
  let var_control := (control.gp t).2
  let mean_case := (case.gp t).1
  let var_case := (case.gp t).2
  PFloat.psub
    (PFloat.padd
      (PFloat.pdiv (PFloat.num (var_control + (mean_control - mean_case) ^ 2))
        (PFloat.num (2 * var_case)))
      (PFloat.pdiv (PFloat.num (var_case + (mean_case - mean_control) ^ 2))
        (PFloat.num (2 * var_control))))
    (PFloat.num 1)

/-- Integration window of `helpers.kl_divergence`.  Both branches of the
source produce the pair (case.drug_start_day, end), differing only in which
array the end point `x[max_x_index]` is read from, with
`max_x_index = min(case.measurement_end, control.measurement_end)`: the
branch guard is `control.y.shape[1] > case.y.shape[1]`, which selects
`case.x`; otherwise `control.x` is used. -/
def kl_window (case control : Condition) : ℚ × ℚ :=
  let max_x_index := min case.measurement_end control.measurement_end
  if case.y_cols < control.y_cols then
    (case.drug_start_day, case.x.getD max_x_index 0)
  else
    (case.drug_start_day, control.x.getD max_x_index 0)

/-- Embedding of `helpers.kl_divergence`: with w the integration window,
`abs(1/(w.end - w.start) * quad(kl_integrand, w.start, w.end)[0]) / 11`. -/
def kl_divergence (quad : Quad) (case control : Condition) : PFloat :=
  let w := kl_window case control
  PFloat.pdiv
    (PFloat.pabs
      (PFloat.pmul (PFloat.pdiv (PFloat.num 1) (PFloat.num (w.2 - w.1)))
        (quad (kl_integrand case control) w.1 w.2)))
    (PFloat.num 11)

/-- Embedding of `helpers.cross_kl_divergences`: for i below the list
length and j below i, evaluate `kl_divergence(list[i], list[j])` and retain
the value when it passes the retention test. -/
def cross_kl_divergences (quad : Quad) (l : List Condition) : List PFloat :=
  (List.range l.length).flatMap (fun i =>
    (List.range i).filterMap (fun j =>
      let new_kl := kl_divergence quad (l.getD i default) (l.getD j default)
      if kl_filter_keep new_kl then some new_kl else none))

/-- Embedding of `helpers.cv_smoothing`: delegate to KDEMultivariate. -/
def cv_smoothing (list_to_be_smoothed : List PFloat) : Except KulgapError Smoothed :=
  KDEMultivariate list_to_be_smoothed

/-- Embedding of `helpers.calculate_null_kl`.  The CSV read
`list(pd.read_csv(filename, header=None)[0])` is modelled by the oracle
`read_csv` mapping a file name to the persisted value list.  The source
raises ValueError (the ConfigurationError of the design) unless exactly one
of the two data sources is supplied, then smooths the raw list and returns
the dictionary with keys list and smoothed. -/
def calculate_null_kl (quad : Quad) (read_csv : String → List PFloat)
    (treatment_condition_list : Option (List Condition)) (filename : Option String) :
    Except KulgapError NullKL :=
  match filename, treatment_condition_list with
  | none, some tcl =>
      match cv_smoothing (cross_kl_divergences quad tcl) with
      | Except.ok s => Except.ok ⟨cross_kl_divergences quad tcl, s⟩
      | Except.error e => Except.error e
  | some f, none =>
      match cv_smoothing (read_csv f) with
      | Except.ok s => Except.ok ⟨read_csv f, s⟩
      | Except.error e => Except.error e
  | _, _ => Except.error KulgapError.configurationError

end helpers

namespace plotting

/-- Embedding of `plotting.p_value`: the scalar version
`(len([x for x in l2 if x >= y]) + 1) / (len(l2) + 1)`. -/
def p_value (y : ℚ) (l2 : List ℚ) : ℚ :=
  (((l2.filter (fun x => y ≤ x)).length : ℚ) + 1) / ((l2.length : ℚ) + 1)

end plotting

namespace aux_functions

/-- Embedding of `aux_functions.p_value`: for each y in l1, append
`(len([x for x in l2 if x >= y]) + 1) / (len(l2) + 1)`. -/
def p_value (l1 l2 : List ℚ) : List ℚ :=
  l1.map (fun y =>
    (((l2.filter (fun x => y ≤ x)).length : ℚ) + 1) / ((l2.length : ℚ) + 1))

/-- Embedding of the inner `kl_integrand` of `aux_functions.kl_divergence`,
textually the same formula as in the helpers module. -/
def kl_integrand (case control : Condition) (t : ℚ) : PFloat :=
  let mean_control := (control.gp t).1
  let var_control := (control.gp t).2
  let mean_case := (case.gp t).1
  let var_case := (case.gp t).2
  PFloat.psub
    (PFloat.padd
      (PFloat.pdiv (PFloat.num (var_control + (mean_control - mean_case) ^ 2))
        (PFloat.num (2 * var_case)))
      (PFloat.pdiv (PFloat.num (var_case + (mean_case - mean_control) ^ 2))
        (PFloat.num (2 * var_control))))
    (PFloat.num 1)

/-- Integration window of `aux_functions.kl_divergence`: same selection as
in the helpers module, guarded by `control.y.shape[1] > case.y.shape[1]`. -/
def kl_window (case control : Condition) : ℚ × ℚ :=
  let max_x_index := min case.measurement_end control.measurement_end
  if case.y_cols < control.y_cols then
    (case.drug_start_day, case.x.getD max_x_index 0)
  else
    (case.drug_start_day, control.x.getD max_x_index 0)

/-- Embedding of `aux_functions.kl_divergence`. -/
def kl_divergence (quad : Quad) (case control : Condition) : PFloat :=
  let w := kl_window case control
  PFloat.pdiv
    (PFloat.pabs
      (PFloat.pmul (PFloat.pdiv (PFloat.num 1) (PFloat.num (w.2 - w.1)))
        (quad (kl_integrand case control) w.1 w.2)))
    (PFloat.num 11)

/-- Embedding of `aux_functions.cross_kl_divergences`: the same double loop
and retention test as in the helpers module. -/
def cross_kl_divergences (quad : Quad) (l : List Condition) : List PFloat :=
  (List.range l.length).flatMap (fun i =>
    (List.range i).filterMap (fun j =>
      let new_kl := kl_divergence quad (l.getD i default) (l.getD j default)
      if kl_filter_keep new_kl then some new_kl else none))

end aux_functions

/-!
Specification-side definitions.  These follow the wording of the
specification and the claims, to be compared with the embeddings above.
-/

/-- Integration window as the claim describes it: the end point
`x[max_x_index]` is read from the time axis of whichever condition has the
longer observed series, ties resolved to the control (the control axis is
used whenever the control has at least as many observations as the case). -/
def kl_window_spec (case control : Condition) : ℚ × ℚ :=
  let max_x_index := min case.measurement_end control.measurement_end
  if case.y_cols ≤ control.y_cols then
    (case.drug_start_day, control.x.getD max_x_index 0)
  else
    (case.drug_start_day, case.x.getD max_x_index 0)

/-- All index pairs (lo, hi) with lo < hi below n, listed in the traversal
order of the aggregator (outer loop over hi, inner loop over lo). -/
def cross_pairs (n : Nat) : List (Nat × Nat) :=
  (List.range n).flatMap (fun i => (List.range i).map (fun j => (j, i)))

/-- Pairwise aggregator as the claim describes it: for each unordered index
pair the lower-index condition is passed in the case position and the
higher-index condition in the control position. -/
def cross_kl_claimed (quad : Quad) (l : List Condition) : List PFloat :=
  (cross_pairs l.length).filterMap (fun p =>
    let v := helpers.kl_divergence quad (l.getD p.1 default) (l.getD p.2 default)
    if kl_filter_keep v then some v else none)

/-- Pairwise aggregator with the argument order corrected to what the
source does: for each unordered index pair the higher-index condition is
passed in the case position and the lower-index one in the control
position. -/
def cross_kl_higher_case (quad : Quad) (l : List Condition) : List PFloat :=
  (cross_pairs l.length).filterMap (fun p =>
    let v := helpers.kl_divergence quad (l.getD p.2 default) (l.getD p.1 default)
    if kl_filter_keep v then some v else none)

/-- All pairwise divergence evaluations performed by the aggregator, before
the retention filter is applied. -/
def cross_kl_evals (quad : Quad) (l : List Condition) : List PFloat :=
  (List.range l.length).flatMap (fun i =>
    (List.range i).map (fun j =>
      helpers.kl_divergence quad (l.getD i default) (l.getD j default)))

/-!
Concrete inputs used by witnesses and counterexamples.
-/

/-- Concrete condition: two time points 0 and 10, one observation column,
drug start at day 0. -/
def condA : Condition := ⟨[0, 10], 1, 1, 0, fun _ => (0, 1)⟩

/-- Concrete condition: two time points 0 and 20, one observation column,
drug start at day 5. -/
def condB : Condition := ⟨[0, 20], 1, 1, 5, fun _ => (0, 1)⟩

/-- Concrete condition: two time points 0 and 20, two observation columns,
drug start at day 0. -/
def condWide : Condition := ⟨[0, 20], 2, 1, 0, fun _ => (0, 1)⟩

/-- Concrete integration oracle returning a value determined by the two
interval endpoints. -/
def quadLinear : Quad := fun _ a b => PFloat.num (a + 2 * b)

/-- Concrete persisted-store oracle holding two distinct values. -/
def read_csv_two : String → List PFloat := fun _ => [PFloat.num 0, PFloat.num 1]

/-- Concrete null-distribution result built from the persisted store. -/
def nullKLW : NullKL := ⟨[PFloat.num 0, PFloat.num 1], ⟨[PFloat.num 0, PFloat.num 1]⟩⟩

/-!
Helper lemmas.
-/

/-- The first window component is always the drug start day of the case. -/
theorem kl_window_fst (case control : Condition) :
    (helpers.kl_window case control).1 = case.drug_start_day := by
  unfold helpers.kl_window
  dsimp only
  split <;> rfl

/-- Dividing the absolute value of anything by 11 yields NaN, +inf, or a
non-negative finite number. -/
theorem pdiv_pabs_eleven_shape (x : PFloat) :
    PFloat.pdiv (PFloat.pabs x) (PFloat.num 11) = PFloat.nan ∨
    PFloat.pdiv (PFloat.pabs x) (PFloat.num 11) = PFloat.inf ∨
    ∃ q : ℚ, 0 ≤ q ∧ PFloat.pdiv (PFloat.pabs x) (PFloat.num 11) = PFloat.num q := by
  cases x with
  | nan => exact Or.inl rfl
  | inf => exact Or.inr (Or.inl (by norm_num [PFloat.pabs, PFloat.pdiv]))
  | ninf => exact Or.inr (Or.inl (by norm_num [PFloat.pabs, PFloat.pdiv]))
  | num q =>
      refine Or.inr (Or.inr ⟨|q| / 11, by positivity, ?_⟩)
      norm_num [PFloat.pabs, PFloat.pdiv]

/-- The divergence function can only return NaN, +inf, or a non-negative
finite number: the final absolute value rules out negative and -inf
results. -/
theorem kl_divergence_shape (quad : Quad) (case control : Condition) :
    helpers.kl_divergence quad case control = PFloat.nan ∨
    helpers.kl_divergence quad case control = PFloat.inf ∨
    ∃ q : ℚ, 0 ≤ q ∧ helpers.kl_divergence quad case control = PFloat.num q :=
  pdiv_pabs_eleven_shape _

/-- The divergence function never returns -inf. -/
theorem kl_divergence_ne_ninf (quad : Quad) (case control : Condition) :
    helpers.kl_divergence quad case control ≠ PFloat.ninf := by
  rcases kl_divergence_shape quad case control with h | h | ⟨q, _, h⟩ <;>
    simp [h]

/-- Multiplying by the reciprocal of a positive length and then taking the
absolute value agrees with dividing the absolute value by the length, also
on the special values. -/
theorem pabs_pmul_inv (l : ℚ) (hl : 0 < l) (x : PFloat) :
    PFloat.pabs (PFloat.pmul (PFloat.pdiv (PFloat.num 1) (PFloat.num l)) x) =
      PFloat.pdiv (PFloat.pabs x) (PFloat.num l) := by
  have hne : l ≠ 0 := ne_of_gt hl
  have hinv : 0 < 1 / l := by positivity
  cases x with
  | nan => simp [PFloat.pdiv, PFloat.pmul, PFloat.pabs, hne]
  | inf => simp [PFloat.pdiv, PFloat.pmul, PFloat.pabs, hne, hinv, hl, le_of_lt hl]
  | ninf => simp [PFloat.pdiv, PFloat.pmul, PFloat.pabs, hne, hinv, hl, le_of_lt hl]
  | num q =>
      simp only [PFloat.pdiv, PFloat.pmul, PFloat.pabs, if_neg hne]
      rw [abs_mul, abs_div, abs_one, abs_of_pos hl]
      rw [div_mul_eq_mul_div, one_mul]

/-- Unfolding of the divergence function in terms of its window. -/
theorem kl_divergence_eq (quad : Quad) (case control : Condition) :
    helpers.kl_divergence quad case control =
      PFloat.pdiv
        (PFloat.pabs
          (PFloat.pmul
            (PFloat.pdiv (PFloat.num 1)
              (PFloat.num ((helpers.kl_window case control).2 - case.drug_start_day)))
            (quad (helpers.kl_integrand case control) case.drug_start_day
              (helpers.kl_window case control).2)))
        (PFloat.num 11) := by
  unfold helpers.kl_divergence
  dsimp only
  rw [kl_window_fst]

/-- The divergence is non-negative whenever it is not NaN. -/
theorem kl_divergence_nonneg (quad : Quad) (case control : Condition)
    (h : helpers.kl_divergence quad case control ≠ PFloat.nan) :
    PFloat.pnonneg (helpers.kl_divergence quad case control) = true := by
  rcases kl_divergence_shape quad case control with h1 | h1 | ⟨q, hq, h1⟩
  · exact absurd h1 h
  · rw [h1]; rfl
  · rw [h1]; simp [PFloat.pnonneg, hq]

/-- C1 counterexample: with a case of one observation column and time axis
ending at 10, and a control of two observation columns and time axis ending
at 20, the source reads the window end from the CASE axis (10), while the
claim pre
scribes the longer series, the control axis (20). -/
theorem kl_window_axis_claim_cex :
    helpers.kl_window condA condWide ≠ kl_window_spec condA condWide := by
  decide

/-- C1 (amended): the integration window starts at case.drug_start_day and
ends at the entry of index min(case.measurement_end, control.measurement_end)
of the CASE time axis when the control has strictly more observation columns
than the case, and of the CONTROL time axis otherwise — the axis of the
shorter observed series, ties resolved to the control. -/
theorem kl_window_axis_selection (case control : Condition) :
    (case.y_cols < control.y_cols →
      helpers.kl_window case control =
        (case.drug_start_day,
          case.x.getD (min case.measurement_end control.measurement_end) 0)) ∧
    (control.y_cols ≤ case.y_cols →
      helpers.kl_window case control =
        (case.drug_start_day,
          control.x.getD (min case.measurement_end control.measurement_end) 0)) := by
  unfold helpers.kl_window
  dsimp only
  constructor
  · intro h
    rw [if_pos h]
  · intro h
    rw [if_neg (by omega)]

/-- Witness for C1 (amended) at the concrete counterexample input. -/
theorem kl_window_axis_selection_witness :
    condA.y_cols < condWide.y_cols ∧
      helpers.kl_window condA condWide =
        (condA.drug_start_day,
          condA.x.getD (min condA.measurement_end condWide.measurement_end) 0) :=
  ⟨by decide, (kl_window_axis_selection condA condWide).1 (by decide)⟩

/-- C2: when the window length is positive, the divergence equals the
absolute value of the integration result over the window, divided by the
window length and by 11; and the returned value is non-negative whenever it
is not NaN. -/
theorem kl_divergence_normalized (quad : Quad) (case control : Condition)
    (hpos : 0 < (helpers.kl_window case control).2 - case.drug_start_day) :
    helpers.kl_divergence quad case control =
      PFloat.pdiv
        (PFloat.pdiv
          (PFloat.pabs (quad (helpers.kl_integrand case control)
            case.drug_start_day (helpers.kl_window case control).2))
          (PFloat.num ((helpers.kl_window case control).2 - case.drug_start_day)))
        (PFloat.num 11) ∧
    (helpers.kl_divergence quad case control ≠ PFloat.nan →
      PFloat.pnonneg (helpers.kl_divergence quad case control) = true) := by
  refine ⟨?_, kl_divergence_nonneg quad case control⟩
  rw [kl_divergence_eq quad case control, pabs_pmul_inv _ hpos]

/-- Positivity of the concrete integration window length. -/
theorem condA_condWide_window_pos :
    0 < (helpers.kl_window condA condWide).2 - condA.drug_start_day := by
  norm_num [helpers.kl_window, condA, condWide, List.getD_cons_succ, List.getD_cons_zero]

/-- Witness for C2 at a concrete oracle and conditions with a positive
integration window. -/
theorem kl_divergence_normalized_witness :
    0 < (helpers.kl_window condA condWide).2 - condA.drug_start_day ∧
    (helpers.kl_divergence quadLinear condA condWide =
      PFloat.pdiv
        (PFloat.pdiv
          (PFloat.pabs (quadLinear (helpers.kl_integrand condA condWide)
            condA.drug_start_day (helpers.kl_window condA condWide).2))
          (PFloat.num ((helpers.kl_window condA condWide).2 - condA.drug_start_day)))
        (PFloat.num 11) ∧
    (helpers.kl_divergence quadLinear condA condWide ≠ PFloat.nan →
      PFloat.pnonneg (helpers.kl_divergence quadLinear condA condWide) = true)) :=
  ⟨condA_condWide_window_pos,
    kl_divergence_normalized quadLinear condA condWide condA_condWide_window_pos⟩

/-- Fusing a map with a retention guard into the filterMap the aggregator
performs on each inner loop. -/
theorem filterMap_guard {β : Type} (f : β → PFloat) (p : PFloat → Bool) (xs : List β) :
    xs.filterMap (fun j => if p (f j) then some (f j) else none) =
      (xs.map f).filter p := by
  induction xs with
  | nil => rfl
  | cons a xs ih =>
      simp only [List.filterMap_cons, List.map_cons, List.filter_cons]
      cases h : p (f a) <;> simp [h, ih]

/-- The aggregator equals its unfiltered evaluation list filtered by the
retention test. -/
theorem cross_kl_eq_filter (quad : Quad) (l : List Condition) :
    helpers.cross_kl_divergences quad l =
      (cross_kl_evals quad l).filter kl_filter_keep := by
  simp only [helpers.cross_kl_divergences, cross_kl_evals, List.filter_flatMap,
    filterMap_guard]

/-- Twice the sum of 0..n-1 is n(n-1). -/
theorem two_mul_sum_range_id (n : ℕ) :
    2 * ((List.range n).map (fun i => i)).sum = n * (n - 1) := by
  induction n with
  | zero => rfl
  | succ m ih =>
      rw [List.sum_range_succ]
      cases m with
      | zero => simp
      | succ k =>
          simp only [Nat.succ_sub_one] at ih ⊢
          nlinarith [ih]

/-- The aggregator makes n(n-1)/2 divergence evaluations on a list of
length n (stated multiplied by two to avoid truncated division). -/
theorem cross_kl_evals_length (quad : Quad) (l : List Condition) :
    2 * (cross_kl_evals quad l).length = l.length * (l.length - 1) := by
  unfold cross_kl_evals
  rw [List.length_flatMap]
  have h : List.map (List.length ∘ fun i => (List.range i).map (fun j =>
      helpers.kl_divergence quad (l.getD i default) (l.getD j default)))
        (List.range l.length) =
      (List.range l.length).map (fun i => i) := by
    simp [Function.comp_def]
  rw [h, two_mul_sum_range_id]

/-- A filter and its complement partition the length of a list. -/
theorem length_filter_add_not {α : Type} (p : α → Bool) (l : List α) :
    (l.filter p).length + (l.filter (fun a => !p a)).length = l.length := by
  induction l with
  | nil => rfl
  | cons a l ih => cases h : p a <;> simp [List.filter_cons, h, ih, Nat.succ_eq_add_one] <;> omega

/-- On values the divergence function can return, the retention test agrees
with finiteness (the -inf value that would slip past the string test never
occurs). -/
theorem keep_eq_finite_of_not_ninf (v : PFloat) (h : v ≠ PFloat.ninf) :
    kl_filter_keep v = PFloat.pfinite v := by
  cases v <;> simp_all [kl_filter_keep, PFloat.pfinite]

/-- Every unfiltered evaluation is a divergence value, hence never -inf. -/
theorem cross_kl_evals_ne_ninf (quad : Quad) (l : List Condition) :
    ∀ v ∈ cross_kl_evals quad l, v ≠ PFloat.ninf := by
  intro v hv
  unfold cross_kl_evals at hv
  simp only [List.mem_flatMap, List.mem_map, List.mem_range] at hv
  obtain ⟨i, _, j, _, rfl⟩ := hv
  exact kl_divergence_ne_ninf quad _ _

/-- C3: on any input list of n conditions, the aggregator performs exactly
n(n-1)/2 divergence evaluations; its output is exactly the finite ones of
those evaluations, in order, so its length is the number of evaluations
minus the number of NaN/infinite ones, is at most n(n-1)/2, and no returned
value is NaN, +inf or -inf. -/
theorem cross_kl_divergences_filtering (quad : Quad) (l : List Condition) :
    helpers.cross_kl_divergences quad l =
      (cross_kl_evals quad l).filter PFloat.pfinite ∧
    (cross_kl_evals quad l).length = l.length * (l.length - 1) / 2 ∧
    (helpers.cross_kl_divergences quad l).length =
      (cross_kl_evals quad l).length -
        ((cross_kl_evals quad l).filter (fun v => !PFloat.pfinite v)).length ∧
    (helpers.cross_kl_divergences quad l).length ≤ l.length * (l.length - 1) / 2 ∧
    (∀ v ∈ helpers.cross_kl_divergences quad l,
      v ≠ PFloat.nan ∧ v ≠ PFloat.inf ∧ v ≠ PFloat.ninf) := by
  have hfil : helpers.cross_kl_divergences quad l =
      (cross_kl_evals quad l).filter PFloat.pfinite := by
    rw [cross_kl_eq_filter]
    exact List.filter_congr (fun v hv =>
      keep_eq_finite_of_not_ninf v (cross_kl_evals_ne_ninf quad l v hv))
  have hlen2 := cross_kl_evals_length quad l
  have hlen : (cross_kl_evals quad l).length = l.length * (l.length - 1) / 2 := by
    omega
  have hpart := length_filter_add_not PFloat.pfinite (cross_kl_evals quad l)
  have hdrop : (helpers.cross_kl_divergences quad l).length =
      (cross_kl_evals quad l).length -
        ((cross_kl_evals quad l).filter (fun v => !PFloat.pfinite v)).length := by
    rw [hfil]; omega
  refine ⟨hfil, hlen, hdrop, ?_, ?_⟩
  · have hle : ((cross_kl_evals quad l).filter PFloat.pfinite).length ≤
        (cross_kl_evals quad l).length := List.length_filter_le _ _
    rw [hfil]
    omega
  · intro v hv
    rw [hfil] at hv
    rcases List.mem_filter.mp hv with ⟨hmem, hfin⟩
    cases v <;> simp_all [PFloat.pfinite]

/-- Divergence evaluation at the concrete conditions, case = condB. -/
theorem kl_quadLinear_BA :
    helpers.kl_divergence quadLinear condB condA = PFloat.num (5 / 11) := by
  norm_num [helpers.kl_divergence, helpers.kl_window, quadLinear, condB, condA,
    PFloat.pdiv, PFloat.pmul, PFloat.pabs, List.getD_cons_succ, List.getD_cons_zero]

/-- Divergence evaluation at the concrete conditions, case = condA. -/
theorem kl_quadLinear_AB :
    helpers.kl_divergence quadLinear condA condB = PFloat.num (2 / 11) := by
  norm_num [helpers.kl_divergence, helpers.kl_window, quadLinear, condA, condB,
    PFloat.pdiv, PFloat.pmul, PFloat.pabs, List.getD_cons_succ, List.getD_cons_zero]

/-- C4 counterexample: on the two-element list [condA, condB] the source
aggregator evaluates the divergence with condB (the higher index) in the
case position, giving 5/11 under the concrete oracle, while the claimed
lower-index-as-case order would give 2/11. -/
theorem cross_kl_argument_order_cex :
    helpers.cross_kl_divergences quadLinear [condA, condB] ≠
      cross_kl_claimed quadLinear [condA, condB] := by
  have h1 : helpers.cross_kl_divergences quadLinear [condA, condB] =
      [PFloat.num (5 / 11)] := by
    simp [helpers.cross_kl_divergences, List.range_succ, kl_quadLinear_BA,
      kl_filter_keep, List.getD_cons_succ, List.getD_cons_zero]
  have h2 : cross_kl_claimed quadLinear [condA, condB] =
      [PFloat.num (2 / 11)] := by
    simp [cross_kl_claimed, cross_pairs, List.range_succ, kl_quadLinear_AB,
      kl_filter_keep, List.getD_cons_succ, List.getD_cons_zero]
  rw [h1, h2]
  norm_num

/-- C4 (amended): for every unordered index pair (i, j) with i < j the
aggregator evaluates divergence(conditions[j], conditions[i]): the
higher-index condition is passed in the case argument position and the
lower-index condition in the control argument position. -/
theorem cross_kl_argument_order (quad : Quad) (l : List Condition) :
    helpers.cross_kl_divergences quad l = cross_kl_higher_case quad l := by
  simp only [helpers.cross_kl_divergences, cross_kl_higher_case, cross_pairs,
    List.filterMap_flatMap, List.filterMap_map]
  rfl

/-- The only error the density fit can signal is the fit error. -/
theorem cv_smoothing_error_eq (d : List PFloat) (e : KulgapError)
    (h : helpers.cv_smoothing d = Except.error e) : e = KulgapError.fitError := by
  unfold helpers.cv_smoothing KDEMultivariate at h
  split at h
  · injection h with h1
    exact h1.symm
  · simp at h

/-- The density fit fails exactly on lists with fewer than two distinct
values. -/
theorem cv_smoothing_fitError_iff (d : List PFloat) :
    helpers.cv_smoothing d = Except.error KulgapError.fitError ↔
      d.dedup.length < 2 := by
  unfold helpers.cv_smoothing KDEMultivariate
  split <;> simp_all

/-- C5 counterexample: with exactly one data source supplied (an empty
condition list, no file), the builder does not return a result: the raw
divergence list is empty, so the density fit fails. -/
theorem calculate_null_kl_single_source_cex :
    helpers.calculate_null_kl quadLinear read_csv_two (some []) none =
      Except.error KulgapError.fitError := rfl

/-- C5 (amended): the builder signals the configuration error exactly when
both data sources or neither are supplied, and it never produces a partial
result: whenever it returns, the returned raw list is exactly the list
determined by the one supplied source and the returned density is the
successful fit of that list; with exactly one source but a degenerate raw
list, the fit error propagates instead of a result. -/
theorem calculate_null_kl_sources (quad : Quad) (read_csv : String → List PFloat)
    (tcl : Option (List Condition)) (filename : Option String) :
    (helpers.calculate_null_kl quad read_csv tcl filename =
        Except.error KulgapError.configurationError ↔
      tcl.isSome = filename.isSome) ∧
    (∀ r, helpers.calculate_null_kl quad read_csv tcl filename = Except.ok r →
      helpers.cv_smoothing r.list = Except.ok r.smoothed ∧
      ((∃ t, tcl = some t ∧ filename = none ∧
          r.list = helpers.cross_kl_divergences quad t) ∨
        (∃ f, filename = some f ∧ tcl = none ∧ r.list = read_csv f))) := by
  cases tcl with
  | none =>
      cases filename with
      | none =>
          refine ⟨by simp [helpers.calculate_null_kl], fun r hr => ?_⟩
          simp [helpers.calculate_null_kl] at hr
      | some f =>
          cases hcv : helpers.cv_smoothing (read_csv f) with
          | ok s =>
              refine ⟨?_, fun r hr => ?_⟩
              · simp [helpers.calculate_null_kl, hcv]
              · simp only [helpers.calculate_null_kl, hcv, Except.ok.injEq] at hr
                subst hr
                exact ⟨hcv, Or.inr ⟨f, rfl, rfl, rfl⟩⟩
          | error e =>
              have he := cv_smoothing_error_eq _ _ hcv
              refine ⟨?_, fun r hr => ?_⟩
              · simp [helpers.calculate_null_kl, hcv, he]
              · simp [helpers.calculate_null_kl, hcv] at hr
  | some t =>
      cases filename with
      | none =>
          cases hcv : helpers.cv_smoothing (helpers.cross_kl_divergences quad t) with
          | ok s =>
              refine ⟨?_, fun r hr => ?_⟩
              · simp [helpers.calculate_null_kl, hcv]
              · simp only [helpers.calculate_null_kl, hcv, Except.ok.injEq] at hr
                subst hr
                exact ⟨hcv, Or.inl ⟨t, rfl, rfl, rfl⟩⟩
          | error e =>
              have he := cv_smoothing_error_eq _ _ hcv
              refine ⟨?_, fun r hr => ?_⟩
              · simp [helpers.calculate_null_kl, hcv, he]
              · simp [helpers.calculate_null_kl, hcv] at hr
      | some f =>
          refine ⟨by simp [helpers.calculate_null_kl], fun r hr => ?_⟩
          simp [helpers.calculate_null_kl] at hr

/-- Witness for C5 (amended) at a concrete successful build from the
persisted store. -/
theorem calculate_null_kl_sources_witness :
    helpers.cv_smoothing nullKLW.list = Except.ok nullKLW.smoothed ∧
      ((∃ t, (none : Option (List Condition)) = some t ∧
          (some "nullfile" : Option String) = none ∧
          nullKLW.list = helpers.cross_kl_divergences quadLinear t) ∨
        (∃ f, (some "nullfile" : Option String) = some f ∧
          (none : Option (List Condition)) = none ∧
          nullKLW.list = read_csv_two f)) :=
  (calculate_null_kl_sources quadLinear read_csv_two none (some "nullfile")).2
    nullKLW rfl

/-- C6: with either data source, a raw list that is empty or has fewer than
two distinct values makes the builder fail with the fit error: directly for
the density fit, via the condition-list source, and via the persisted
store. -/
theorem calculate_null_kl_degenerate_fit (quad : Quad)
    (read_csv : String → List PFloat) :
    (∀ d : List PFloat, (d = [] ∨ d.dedup.length < 2) →
        helpers.cv_smoothing d = Except.error KulgapError.fitError) ∧
    (∀ t : List Condition,
        (helpers.cross_kl_divergences quad t).dedup.length < 2 →
        helpers.calculate_null_kl quad read_csv (some t) none =
          Except.error KulgapError.fitError) ∧
    (∀ f : String, (read_csv f).dedup.length < 2 →
        helpers.calculate_null_kl quad read_csv none (some f) =
          Except.error KulgapError.fitError) := by
  have hfit : ∀ d : List PFloat, (d = [] ∨ d.dedup.length < 2) →
      helpers.cv_smoothing d = Except.error KulgapError.fitError := by
    intro d hd
    refine (cv_smoothing_fitError_iff d).mpr ?_
    rcases hd with rfl | hd
    · simp
    · exact hd
  refine ⟨hfit, fun t ht => ?_, fun f hf => ?_⟩
  · have h := hfit _ (Or.inr ht)
    simp [helpers.calculate_null_kl, h]
  · have h := hfit _ (Or.inr hf)
    simp [helpers.calculate_null_kl, h]

/-- Witness for C6 at the empty condition list. -/
theorem calculate_null_kl_degenerate_fit_witness :
    helpers.calculate_null_kl quadLinear read_csv_two (some []) none =
      Except.error KulgapError.fitError :=
  (calculate_null_kl_degenerate_fit quadLinear read_csv_two).2.1 [] (by decide)

/-- C7: the empirical p-value is (count of null values at least the
observed, plus one) over (sample size plus one); the list version maps the
scalar version over its first argument; and when every null value lies
strictly below the observed value the result is exactly 1/(n+1). -/
theorem p_value_formula (y : ℚ) (l2 l1 : List ℚ) :
    plotting.p_value y l2 =
      ((l2.countP (fun x => y ≤ x) : ℚ) + 1) / ((l2.length : ℚ) + 1) ∧
    helpers.p_value l1 l2 = l1.map (fun z => plotting.p_value z l2) ∧
    ((∀ x ∈ l2, x < y) → plotting.p_value y l2 = 1 / ((l2.length : ℚ) + 1)) := by
  refine ⟨?_, rfl, fun h => ?_⟩
  · unfold plotting.p_value
    rw [List.countP_eq_length_filter]
  · unfold plotting.p_value
    have hfil : l2.filter (fun x => y ≤ x) = [] := by
      refine List.filter_eq_nil_iff.mpr (fun a ha => ?_)
      simp only [decide_eq_true_eq]
      exact not_le.mpr (h a ha)
    rw [hfil]
    norm_num

/-- Witness for C7: observed value 100 against a sample of three null
values all below 50 gives the minimum attainable p-value 1/4. -/
theorem p_value_formula_witness :
    (∀ x ∈ ([10, 20, 49] : List ℚ), x < 100) ∧
      plotting.p_value 100 [10, 20, 49] =
        1 / ((([10, 20, 49] : List ℚ).length : ℚ) + 1) :=
  ⟨by decide, (p_value_formula 100 [10, 20, 49] []).2.2 (by decide)⟩

/-- C8: for a fixed null list the empirical p-value is non-increasing in
the observed value, strictly positive, and at most one. -/
theorem p_value_monotone_bounds (l2 : List ℚ) (y y1 y2 : ℚ) (h : y1 ≤ y2) :
    plotting.p_value y2 l2 ≤ plotting.p_value y1 l2 ∧
    0 < plotting.p_value y l2 ∧ plotting.p_value y l2 ≤ 1 := by
  have hd : (0 : ℚ) < (l2.length : ℚ) + 1 := by positivity
  refine ⟨?_, ?_, ?_⟩
  · unfold plotting.p_value
    have hcnt : (l2.filter (fun x => y2 ≤ x)).length ≤
        (l2.filter (fun x => y1 ≤ x)).length := by
      rw [← List.countP_eq_length_filter, ← List.countP_eq_length_filter]
      refine List.countP_mono_left (fun x _ hx => ?_)
      simp only [decide_eq_true_eq] at hx ⊢
      exact le_trans h hx
    gcongr
  · unfold plotting.p_value
    positivity
  · unfold plotting.p_value
    rw [div_le_one hd]
    have h2 : (l2.filter (fun x => y ≤ x)).length ≤ l2.length :=
      List.length_filter_le _ _
    have h3 : ((l2.filter (fun x => y ≤ x)).length : ℚ) ≤ (l2.length : ℚ) :=
      Nat.cast_le.mpr h2
    linarith

/-- Witness for C8 at a concrete null list and observed values. -/
theorem p_value_monotone_bounds_witness :
    (1 : ℚ) ≤ 2 ∧
      (plotting.p_value 2 [1, 3] ≤ plotting.p_value 1 [1, 3] ∧
        0 < plotting.p_value 0 [1, 3] ∧ plotting.p_value 0 [1, 3] ≤ 1) :=
  ⟨by decide, p_value_monotone_bounds [1, 3] 0 1 2 (by decide)⟩

/-- C9: the p-value denominator is the sample size plus one, hence never
zero, and on an empty null list the p-value is exactly one for every
observed value. -/
theorem p_value_total_on_empty :
    (∀ l2 : List ℚ, (0 : ℚ) < (l2.length : ℚ) + 1) ∧
      (∀ y : ℚ, plotting.p_value y [] = 1) := by
  refine ⟨fun l2 => by positivity, fun y => ?_⟩
  unfold plotting.p_value
  norm_num

/-- C10: the duplicated implementations in the aux module and the helpers
module compute the same functions. -/
theorem duplicate_implementations_agree :
    (∀ l1 l2 : List ℚ, aux_functions.p_value l1 l2 = helpers.p_value l1 l2) ∧
    (∀ (quad : Quad) (case control : Condition),
      aux_functions.kl_divergence quad case control =
        helpers.kl_divergence quad case control) ∧
    (∀ (quad : Quad) (l : List Condition),
      aux_functions.cross_kl_divergences quad l =
        helpers.cross_kl_divergences quad l) :=
  ⟨fun _ _ => rfl, fun _ _ _ => rfl, fun _ _ => rfl⟩
